import Mathlib

/-!
Shallow embedding of the go-selfupdate library (selfupdate/selfupdate.go and
the release builder CreateUpdate) for checking its natural-language
specification.  Machine integers do not occur on the paths modelled here;
Go time instants are modelled as Int nanoseconds, byte strings as List Nat,
and external collaborators (HTTP fetcher, SHA-256, RSA, gzip, bsdiff, JSON)
as explicit function parameters collected in a Prims record, so that every
definition stays executable.
-/

deriving instance DecidableEq for Except

namespace SelfUpdate

abbrev Bytes := List Nat
abbrev Trace := List Bytes
abbrev Fetcher := Bytes → Except String Bytes

/-- The manifest structure (selfupdate.go Info): Version, Sha256, Signature.
A Go nil byte slice is modelled as the empty list. -/
structure Info where
  Version : String
  Sha256 : Bytes
  Signature : Bytes
deriving DecidableEq

/-- Info zero value, returned by Update when no update is available. -/
def Info.empty : Info := ⟨"", [], []⟩

/-- Updater configuration (selfupdate.go).  The Requester is passed
separately as a Fetcher argument; the RSA public key is abstracted to a Nat
handle consumed by the abstract verification primitive. -/
structure Updater where
  CurrentVersion : String
  ApiURL : String
  CmdName : String
  BinURL : String
  DiffURL : String
  Dir : String
  ForceCheck : Bool
  CheckTime : Int
  RandomizeTime : Int
  PublicKey : Option Nat
  Target : String

/-- A convenient base configuration; individual fixtures override fields. -/
def baseUpdater : Updater :=
  { CurrentVersion := "", ApiURL := "", CmdName := "", BinURL := "",
    DiffURL := "", Dir := "", ForceCheck := false, CheckTime := 0,
    RandomizeTime := 0, PublicKey := none, Target := "" }

/-- Error values produced by the modelled updater.  ErrHashMismatch and
ErrSignatureMismatch are the two sentinel errors of the source; the other
constructors model the remaining error returns. -/
inductive UpdateError where
  | openFailed (msg : String)
  | fetchFailed (msg : String)
  | decodeFailed
  | badHashLength (n : Nat)
  | missingSignature
  | hashMismatch
  | signatureMismatch
  | patchFailed (msg : String)
  | gunzipFailed (msg : String)
  | swapFailed (msg : String)
  | recoveryFailed (e1 e2 : Option String)
  | mkdirFailed (msg : String)
  | canUpdateFailed (msg : String)
deriving DecidableEq

/-- Go time.Hour in nanoseconds. -/
def hourNs : Int := 3600000000000

/-- The zero time.Time instant; instants are nanoseconds from it. -/
def zeroInstant : Int := 0

/-- Outcome of ioutil.ReadFile on the cooldown file. -/
inductive ReadResult where
  | notExist
  | readError
  | content (s : String)

/-- readTime (selfupdate.go:341): missing file gives the zero instant, any
other read error or an unparseable RFC3339 body gives now + 1000 hours, a
parsed body gives the parsed instant.  The RFC3339 parser is abstracted as
a parse function. -/
def readTime (parse : String → Option Int) (now : Int) (r : ReadResult) : Int :=
  match r with
  | .notExist => zeroInstant
  | .readError => now + 1000 * hourNs
  | .content s =>
    match parse s with
    | none => now + 1000 * hourNs
    | some t => t

/-- NextUpdate (selfupdate.go:142): reads the cooldown file. -/
def NextUpdate (parse : String → Option Int) (now : Int) (r : ReadResult) : Int :=
  readTime parse now r

/-- WantUpdate (selfupdate.go:133). -/
def WantUpdate (u : Updater) (parse : String → Option Int) (now : Int) (r : ReadResult) : Bool :=
  if u.CurrentVersion = "dev" ∨ (u.ForceCheck = false ∧ now < NextUpdate parse now r) then
    false
  else
    true

/-- Smallest int64 value, the lower bound of Go int and time.Duration. -/
def int64Min : Int := -9223372036854775808

/-- Largest int64 value, the upper bound of Go int and time.Duration. -/
def int64Max : Int := 9223372036854775807

/-- Two's-complement wrap-around of Go 64-bit arithmetic: the value of an
int or time.Duration expression, reduced into the int64 range. -/
def wrap64 (n : Int) : Int :=
  (n + 9223372036854775808) % 18446744073709551616 - 9223372036854775808

/-- math/rand Intn: panics (none) when the bound is not positive, otherwise
returns the draw reduced into the interval from 0 inclusive to the bound
exclusive.  The bound argument is the already-computed int64 value of the
caller's expression; Intn itself does not overflow. -/
def Intn (n : Int) (draw : Nat) : Option Int :=
  if n ≤ 0 then none else some ((draw : Int) % n)

/-- SetUpdateTime (selfupdate.go:150): the instant written to the cooldown
file, or none when rand.Intn panics.  The draw models the PRNG state.  The
bound RandomizeTime+1 is computed in Go int and each Duration product and
the Duration sum wrap in int64, modelled by wrap64. -/
def SetUpdateTime (u : Updater) (now : Int) (draw : Nat) : Option Int :=
  (Intn (wrap64 (u.RandomizeTime + 1)) draw).map fun waitrand =>
    now + wrap64 (wrap64 (u.CheckTime * hourNs) + wrap64 (waitrand * hourNs))

/-- SetUpdateTime viewed as the Go function result: the boolean success of
writeTime, still none on the rand.Intn panic.  writeOK is the outcome of
the underlying file write. -/
def SetUpdateTimeB (u : Updater) (now : Int) (draw : Nat) (writeOK : Bool) : Option Bool :=
  (SetUpdateTime u now draw).map fun _ => writeOK

/-- UTF-8 encoding of one character, the bytes Go iterates over. -/
def utf8Bytes (c : Char) : Bytes :=
  let n := c.toNat
  if n < 128 then [n]
  else if n < 2048 then [192 + n / 64, 128 + n % 64]
  else if n < 65536 then [224 + n / 4096, 128 + (n / 64) % 64, 128 + n % 64]
  else [240 + n / 262144, 128 + (n / 4096) % 64, 128 + (n / 64) % 64, 128 + n % 64]

/-- The UTF-8 byte sequence of a string. -/
def strBytes (s : String) : Bytes :=
  (s.data.map utf8Bytes).flatten

/-- net/url shouldEscape for the query component, negated: bytes kept
verbatim are ASCII alphanumerics and dash, underscore, dot, tilde. -/
def isUnreservedByte (b : Nat) : Bool :=
  (97 ≤ b && b ≤ 122) || (65 ≤ b && b ≤ 90) || (48 ≤ b && b ≤ 57) ||
    b == 45 || b == 95 || b == 46 || b == 126

/-- Uppercase hexadecimal digit byte, as in net/url upperhex. -/
def upperHexDigit (n : Nat) : Nat :=
  if n < 10 then 48 + n else 55 + n

/-- Escaping of one byte under url.QueryEscape: unreserved bytes kept,
space becomes plus, everything else percent-encoded with uppercase hex. -/
def queryEscapeByte (b : Nat) : Bytes :=
  if isUnreservedByte b then [b]
  else if b == 32 then [43]
  else [37, upperHexDigit (b / 16), upperHexDigit (b % 16)]

/-- url.QueryEscape over a byte string. -/
def queryEscape (bs : Bytes) : Bytes :=
  (bs.map queryEscapeByte).flatten

/-- url.QueryEscape applied to the UTF-8 bytes of a string. -/
def queryEscapeS (s : String) : Bytes :=
  queryEscape (strBytes s)

/-- Manifest URL built by fetchInfo (selfupdate.go:250). -/
def fetchInfoURL (u : Updater) (plat : String) : Bytes :=
  strBytes u.ApiURL ++ queryEscapeS u.CmdName ++ strBytes "/" ++
    queryEscapeS plat ++ strBytes ".json"

/-- Delta URL built by fetchAndApplyPatch (selfupdate.go:281). -/
def diffFetchURL (u : Updater) (plat : String) (info : Info) : Bytes :=
  strBytes u.DiffURL ++ queryEscapeS u.CmdName ++ strBytes "/" ++
    queryEscapeS u.CurrentVersion ++ strBytes "/" ++
    queryEscapeS info.Version ++ strBytes "/" ++ queryEscapeS plat

/-- Full-binary URL built by fetchBin (selfupdate.go:307). -/
def binFetchURL (u : Updater) (plat : String) (info : Info) : Bytes :=
  strBytes u.BinURL ++ queryEscapeS u.CmdName ++ strBytes "/" ++
    queryEscapeS info.Version ++ strBytes "/" ++ queryEscapeS plat ++
    strBytes ".gz"

/-- External collaborators of the core: SHA-256, RSA PKCS#1 v1.5, gzip, the
binary delta codec, JSON, and the go-update engine FromStream, abstracted
as explicit functions. -/
structure Prims where
  sha256 : Bytes → Bytes
  rsaVerify : Nat → Bytes → Bytes → Bool
  jsonDecodeInfo : Bytes → Option Info
  encodeInfo : Info → Bytes
  gzip : Bytes → Bytes
  gunzip : Bytes → Except String Bytes
  diff : Bytes → Bytes → Bytes
  patch : Bytes → Bytes → Except String Bytes
  sign : Nat → Bytes → Option Bytes
  fromStream : Bytes → Option String × Option String

/-- sha256.Size. -/
def sha256Size : Nat := 32

/-- verifySha (selfupdate.go:356). -/
def verifySha (P : Prims) (bin sha : Bytes) : Bool :=
  P.sha256 bin == sha

/-- verifySignature (selfupdate.go:362): permissive when no key is set. -/
def verifySignature (P : Prims) (pk : Option Nat) (bin sig : Bytes) : Bool :=
  match pk with
  | none => true
  | some k => P.rsaVerify k bin sig

/-- fetchInfo (selfupdate.go:249) with an explicit trace of fetched URLs:
fetch the manifest, JSON-decode it, then reject a non-empty Version whose
Sha256 is not exactly sha256.Size bytes. -/
def fetchInfoT (P : Prims) (u : Updater) (plat : String) (f : Fetcher) (tr : Trace) :
    Except UpdateError Info × Trace :=
  match f (fetchInfoURL u plat) with
  | .error e => (.error (.fetchFailed e), tr ++ [fetchInfoURL u plat])
  | .ok body =>
    match P.jsonDecodeInfo body with
    | none => (.error .decodeFailed, tr ++ [fetchInfoURL u plat])
    | some info =>
      if info.Version ≠ "" ∧ info.Sha256.length ≠ sha256Size then
        (.error (.badHashLength info.Sha256.length), tr ++ [fetchInfoURL u plat])
      else
        (.ok info, tr ++ [fetchInfoURL u plat])

/-- fetchAndApplyPatch (selfupdate.go:280): fetch the delta and apply the
binary delta codec to the old binary. -/
def fetchAndApplyPatch (P : Prims) (u : Updater) (plat : String) (f : Fetcher)
    (info : Info) (old : Bytes) (tr : Trace) : Except UpdateError Bytes × Trace :=
  match f (diffFetchURL u plat info) with
  | .error e => (.error (.fetchFailed e), tr ++ [diffFetchURL u plat info])
  | .ok body =>
    match P.patch old body with
    | .error e => (.error (.patchFailed e), tr ++ [diffFetchURL u plat info])
    | .ok bin => (.ok bin, tr ++ [diffFetchURL u plat info])

/-- fetchAndVerifyPatch (selfupdate.go:266): hash check, then signature. -/
def fetchAndVerifyPatch (P : Prims) (u : Updater) (plat : String) (f : Fetcher)
    (info : Info) (old : Bytes) (tr : Trace) : Except UpdateError Bytes × Trace :=
  match fetchAndApplyPatch P u plat f info old tr with
  | (.error e, tr1) => (.error e, tr1)
  | (.ok bin, tr1) =>
    if verifySha P bin info.Sha256 = false then (.error .hashMismatch, tr1)
    else if verifySignature P u.PublicKey bin info.Signature = false then
      (.error .signatureMismatch, tr1)
    else (.ok bin, tr1)

/-- fetchBin (selfupdate.go:306): fetch the gzipped full binary and
decompress it. -/
def fetchBin (P : Prims) (u : Updater) (plat : String) (f : Fetcher)
    (info : Info) (tr : Trace) : Except UpdateError Bytes × Trace :=
  match f (binFetchURL u plat info) with
  | .error e => (.error (.fetchFailed e), tr ++ [binFetchURL u plat info])
  | .ok body =>
    match P.gunzip body with
    | .error e => (.error (.gunzipFailed e), tr ++ [binFetchURL u plat info])
    | .ok bin => (.ok bin, tr ++ [binFetchURL u plat info])

/-- fetchAndVerifyFullBin (selfupdate.go:291). -/
def fetchAndVerifyFullBin (P : Prims) (u : Updater) (plat : String) (f : Fetcher)
    (info : Info) (tr : Trace) : Except UpdateError Bytes × Trace :=
  match fetchBin P u plat f info tr with
  | (.error e, tr1) => (.error e, tr1)
  | (.ok bin, tr1) =>
    if verifySha P bin info.Sha256 = false then (.error .hashMismatch, tr1)
    else if verifySignature P u.PublicKey bin info.Signature = false then
      (.error .signatureMismatch, tr1)
    else (.ok bin, tr1)

/-- The tail of Update (selfupdate.go:239): up.FromStream on the candidate;
a recovery error dominates, then the plain swap error, else success. -/
def updateInstall (P : Prims) (info : Info) (bin : Bytes) (tr : Trace) :
    Except UpdateError Info × Trace :=
  match P.fromStream bin with
  | (e1, some e2) => (.error (.recoveryFailed e1 (some e2)), tr)
  | (some e1, none) => (.error (.swapFailed e1), tr)
  | (none, none) => (.ok info, tr)

/-- The full-binary stage of Update (selfupdate.go:224): fetch and verify
the full binary, then install it. -/
def updateFull (P : Prims) (u : Updater) (plat : String) (f : Fetcher)
    (info : Info) (tr : Trace) : Except UpdateError Info × Trace :=
  match fetchAndVerifyFullBin P u plat f info tr with
  | (.error e, tr1) => (.error e, tr1)
  | (.ok bin, tr1) => updateInstall P info bin tr1

/-- Update (selfupdate.go:190).  openOld is the result of opening the
current binary.  On any error from the delta stage, including the
signature-mismatch sentinel, the source falls through to the full-binary
stage (the err == ErrHashMismatch comparison only selects a log line). -/
def Update (P : Prims) (u : Updater) (plat : String) (f : Fetcher)
    (openOld : Except String Bytes) : Except UpdateError Info × Trace :=
  match openOld with
  | .error e => (.error (.openFailed e), [])
  | .ok old =>
    match fetchInfoT P u plat f [] with
    | (.error e, tr) => (.error e, tr)
    | (.ok info, tr) =>
      if info.Version = "" then (.ok Info.empty, tr)
      else if info.Version = u.CurrentVersion then (.ok Info.empty, tr)
      else if u.PublicKey.isSome = true ∧ info.Signature = [] then
        (.error .missingSignature, tr)
      else
        match fetchAndVerifyPatch P u plat f info old tr with
        | (.ok bin, tr1) => updateInstall P info bin tr1
        | (.error _e, tr1) => updateFull P u plat f info tr1

/-- BackgroundRun (selfupdate.go:115): make the state directory, check
WantUpdate, consult CanUpdate, call SetUpdateTime discarding its boolean
result, then Update.  The outer Option is none exactly when SetUpdateTime
panics in rand.Intn. -/
def BackgroundRun (P : Prims) (u : Updater) (plat : String) (f : Fetcher)
    (mkdirErr : Option String) (parse : String → Option Int) (now : Int)
    (r : ReadResult) (canUpdateErr : Option String) (draw : Nat)
    (writeOK : Bool) (openOld : Except String Bytes) :
    Option (Except UpdateError Info × Trace) :=
  match mkdirErr with
  | some e => some (.error (.mkdirFailed e), [])
  | none =>
    if WantUpdate u parse now r then
      match canUpdateErr with
      | some e => some (.error (.canUpdateFailed e), [])
      | none =>
        match SetUpdateTimeB u now draw writeOK with
        | none => none
        | some _ok => some (Update P u plat f openOld)
    else
      some (.ok Info.empty, [])

/-- A filesystem path, as the list of its components. -/
abbrev FPath := List String

/-- Idealized filesystem for the release builder output tree: an
association list of files (later writes shadow earlier ones) and the set
of directories. -/
structure FS where
  files : List (FPath × Bytes)
  dirs : List FPath
deriving DecidableEq

/-- First-match lookup in the file list. -/
def lookupF : List (FPath × Bytes) → FPath → Option Bytes
  | [], _ => none
  | e :: es, p => if e.1 = p then some e.2 else lookupF es p

/-- Read a file. -/
def FS.readFile (fs : FS) (p : FPath) : Option Bytes :=
  lookupF fs.files p

/-- Whole-file write (ioutil.WriteFile): shadows any previous content. -/
def FS.writeFile (fs : FS) (p : FPath) (c : Bytes) : FS :=
  ⟨(p, c) :: fs.files, fs.dirs⟩

/-- os.Mkdir and os.MkdirAll restricted to the modelled tree: record the
directory; creating an existing directory changes nothing. -/
def FS.mkdir (fs : FS) (p : FPath) : FS :=
  ⟨fs.files, if p ∈ fs.dirs then fs.dirs else p :: fs.dirs⟩

/-- ioutil.ReadDir restricted to directory entries: the names of the
immediate subdirectories of d (the builder loop skips non-directories). -/
def subdirNames (fs : FS) (d : FPath) : List String :=
  fs.dirs.filterMap fun p =>
    if p.dropLast = d ∧ p ≠ [] then some (p.getLastD "") else none

/-- One iteration of the CreateUpdate loop (hello-updater main.go:165,
identical in the builder shipped with the library): skip the new version
itself, create the old/new delta directory, silently skip a directory
without an old gz artifact, abort on an unreadable new artifact, gunzip
both sides, diff them, and write the delta.  none models a panic or
os.Exit(1). -/
def processDir (P : Prims) (genDir : FPath) (version platform : String)
    (name : String) (fs : FS) : Option FS :=
  if name = version then some fs
  else
    let fs1 := fs.mkdir (genDir ++ [name, version])
    match fs1.readFile (genDir ++ [name, platform ++ ".gz"]) with
    | none => some fs1
    | some oldgz =>
      match fs1.readFile (genDir ++ [version, platform ++ ".gz"]) with
      | none => none
      | some newgz =>
        match P.gunzip oldgz, P.gunzip newgz with
        | .ok oldPlain, .ok newPlain =>
          some (fs1.writeFile (genDir ++ [name, version, platform])
            (P.diff oldPlain newPlain))
        | _, _ => none

/-- The manifest CreateUpdate builds before writing: the raw hash is
signed when a private key is given; a signing failure is a panic (none). -/
def signedManifest (P : Prims) (vv : String) (sha : Bytes)
    (pk : Option Nat) : Option Info :=
  match pk with
  | none => some ⟨vv, sha, []⟩
  | some k => (P.sign k sha).map fun sig => ⟨vv, sha, sig⟩

/-- CreateUpdate (hello-updater main.go:130): build the manifest from the
source hash (signing it when a key is given), write the manifest JSON,
create the version directory, write the gzipped source, then produce a
delta for every subdirectory of the output tree.  src is the content of
the source path (none when unreadable, which makes the second ReadFile
panic); none models a panic. -/
def CreateUpdate (P : Prims) (version : Info) (src : Option Bytes)
    (platform : String) (genDir : FPath) (pk : Option Nat) (fs : FS) :
    Option FS :=
  match signedManifest P version.Version (P.sha256 (src.getD [])) pk with
  | none => none
  | some c =>
    let fs1 := fs.writeFile (genDir ++ [platform ++ ".json"]) (P.encodeInfo c)
    let fs2 := fs1.mkdir (genDir ++ [version.Version])
    match src with
    | none => none
    | some srcBytes =>
      let fs3 := fs2.writeFile (genDir ++ [version.Version, platform ++ ".gz"])
        (P.gzip srcBytes)
      List.foldlM (fun s n => processDir P genDir version.Version platform n s)
        fs3 (subdirNames fs3 genDir)

/-- The builder output tree just before the delta loop of CreateUpdate:
manifest JSON written, version directory created, gzipped source
written. -/
def builderStage (P : Prims) (vv : String) (src : Bytes) (platform : String)
    (genDir : FPath) (jsonBytes : Bytes) (fs : FS) : FS :=
  ((fs.writeFile (genDir ++ [platform ++ ".json"]) jsonBytes).mkdir
      (genDir ++ [vv])).writeFile
    (genDir ++ [vv, platform ++ ".gz"]) (P.gzip src)

/-- Concrete primitives for witnesses and counterexamples: constant hash,
signature check comparing the signature with the binary followed by the
key handle, identity gzip, and a delta codec whose patch returns the delta
itself (so patch after diff restores the new bytes). -/
def prims0 : Prims :=
  { sha256 := fun _ => List.replicate 32 0
    rsaVerify := fun k bin sig => sig == bin ++ [k]
    jsonDecodeInfo := fun _ => none
    encodeInfo := fun _ => []
    gzip := fun b => b
    gunzip := fun b => Except.ok b
    diff := fun _ n => n
    patch := fun _ d => Except.ok d
    sign := fun _ h => some h
    fromStream := fun _ => (none, none) }

/-- Manifest fixture for the delta-signature-mismatch run: hash matches
any binary under prims0, signature verifies only the binary [0, 1]. -/
def info1 : Info := ⟨"1.3", List.replicate 32 0, [0, 1, 7]⟩

/-- Updater fixture with distinct API, binary and delta bases and a
configured public key. -/
def u1 : Updater :=
  { baseUpdater with
    CurrentVersion := "1.2", ApiURL := "a/", BinURL := "b/"
    DiffURL := "d/", CmdName := "m", PublicKey := some 7 }

/-- Primitives for the delta-signature-mismatch run: the delta [42]
patches to [1, 0], whose signature check fails, while the full download
[0, 1] verifies. -/
def prims1 : Prims :=
  { prims0 with
    jsonDecodeInfo := fun _ => some info1
    patch := fun _ d => Except.ok (if d == [42] then [1, 0] else d) }

/-- Fetcher for the delta-signature-mismatch run. -/
def fetcher1 : Fetcher := fun url =>
  if url = diffFetchURL u1 "p" info1 then Except.ok [42]
  else if url = binFetchURL u1 "p" info1 then Except.ok [0, 1]
  else Except.ok [9]

/-- Manifest fixture for the empty-DiffURL run (no key configured). -/
def info2 : Info := ⟨"1.3", List.replicate 32 0, []⟩

/-- Updater fixture with DiffURL set to the empty string. -/
def u2 : Updater :=
  { baseUpdater with
    CurrentVersion := "1.2", ApiURL := "a/", BinURL := "b/"
    DiffURL := "", CmdName := "m" }

/-- Primitives for the empty-DiffURL run. -/
def prims2 : Prims :=
  { prims0 with jsonDecodeInfo := fun _ => some info2 }

/-- Fetcher for the empty-DiffURL run: the manifest succeeds, every other
URL (the base-less delta URL and the full URL) answers 404. -/
def fetcher2 : Fetcher := fun url =>
  if url = fetchInfoURL u2 "p" then Except.ok [9] else Except.error "404"

/-- Version fixture for the builder run. -/
def infoV : Info := ⟨"1.2", [], []⟩

/-- Builder output tree before the run: one prior version directory 1.0
holding a gz artifact for platform linux. -/
def fs0 : FS :=
  ⟨[(["out", "1.0", "linux.gz"], [7, 7])], [["out", "1.0"]]⟩

/-- The builder output tree after the concrete run. -/
def fs3out : FS :=
  (CreateUpdate prims0 infoV (some [1, 2, 3]) "linux" ["out"] none fs0).getD ⟨[], []⟩

/-- Updater fixture whose CurrentVersion is the dev sentinel. -/
def udev : Updater := { baseUpdater with CurrentVersion := "dev", ForceCheck := true }

/-- An RFC3339 parser that rejects everything. -/
def parse0 : String → Option Int := fun _ => none

/-- An RFC3339 parser that parses everything to instant 42. -/
def parse42 : String → Option Int := fun _ => some 42

/-- Scheduler fixture of the jitter-window scenario: CheckTime 100,
RandomizeTime 100. -/
def u6 : Updater := { baseUpdater with CheckTime := 100, RandomizeTime := 100 }

/-- Scheduler fixture at the smallest CheckTime whose hour product
overflows int64. -/
def uOv : Updater := { baseUpdater with CheckTime := 2562048, RandomizeTime := 0 }

/-- Scheduler fixture at RandomizeTime MaxInt64, where the int bound
RandomizeTime+1 wraps negative. -/
def uMax : Updater := { baseUpdater with RandomizeTime := 9223372036854775807 }

/-- Updater fixture with a negative RandomizeTime. -/
def u9 : Updater := { baseUpdater with RandomizeTime := -1 }

/-- Manifest fixture with a non-empty version and a 1-byte hash. -/
def info7 : Info := ⟨"1.3", [1], []⟩

/-- Primitives decoding every manifest body to info7. -/
def prims7 : Prims :=
  { prims0 with jsonDecodeInfo := fun _ => some info7 }

/-- Fetcher answering every URL with an empty successful body. -/
def fetcher7 : Fetcher := fun _ => Except.ok []

/-- Manifest fixture with an empty version and a 1-byte hash. -/
def info8 : Info := ⟨"", [1], []⟩

/-- Primitives decoding every manifest body to info8. -/
def prims8 : Prims :=
  { prims0 with jsonDecodeInfo := fun _ => some info8 }

/-- The example configuration of the URL-escaping scenario. -/
def u5 : Updater :=
  { baseUpdater with
    ApiURL := "http://api.updates.yourdomain.com/", CmdName := "myapp+foo" }

/-- C4: WantUpdate returns false if and only if CurrentVersion equals dev,
or ForceCheck is false and the next-update instant is strictly after the
current time; in particular, for CurrentVersion dev it returns false
regardless of the cooldown file state and of ForceCheck. -/
theorem wantUpdate_false_iff (u : Updater) (parse : String → Option Int)
    (now : Int) (r : ReadResult) :
    (WantUpdate u parse now r = false ↔
      (u.CurrentVersion = "dev" ∨
        (u.ForceCheck = false ∧ now < NextUpdate parse now r)))
    ∧ (u.CurrentVersion = "dev" → WantUpdate u parse now r = false) := by
  constructor
  · unfold WantUpdate
    split <;> simp_all
  · intro h
    unfold WantUpdate
    rw [if_pos (Or.inl h)]

/-- Witness for C4 at a concrete configuration with a forced check and an
exhausted cooldown: the dev sentinel still disables the update. -/
theorem wantUpdate_false_iff_witness :
    WantUpdate udev parse0 5 .notExist = false :=
  (wantUpdate_false_iff udev parse0 5 .notExist).2 rfl

/-- C5: the manifest URL is the concatenation of ApiURL, the query-escaped
CmdName, a slash, the query-escaped platform and .json, query escaping
turning plus into percent-2B; at the example configuration the URL is the
expected literal. -/
theorem fetchInfoURL_spec :
    (∀ (u : Updater) (plat : String),
      fetchInfoURL u plat =
        strBytes u.ApiURL ++ queryEscape (strBytes u.CmdName) ++ strBytes "/" ++
          queryEscape (strBytes plat) ++ strBytes ".json")
    ∧ queryEscapeS "myapp+foo" = strBytes "myapp%2Bfoo"
    ∧ fetchInfoURL u5 "linux-amd64" =
        strBytes "http://api.updates.yourdomain.com/myapp%2Bfoo/linux-amd64.json" :=
  ⟨fun _ _ => rfl, by decide, by decide⟩

theorem wrap64_eq_self (n : Int) (h1 : int64Min ≤ n) (h2 : n ≤ int64Max) :
    wrap64 n = n := by
  simp only [int64Min, int64Max] at h1 h2
  unfold wrap64
  rw [Int.emod_eq_of_lt (by omega) (by omega)]
  omega

/-- C6 counterexample: at the in-domain non-negative configuration
CheckTime 2562048 (and RandomizeTime 0) the int64 product of the
CheckTime duration with one hour wraps negative, so the written instant
falls below t + CheckTime hours; and at the in-domain RandomizeTime
MaxInt64 the int bound RandomizeTime+1 wraps, rand.Intn panics and no
timestamp is written at all. -/
theorem setUpdateTime_overflow_cex :
    (0 ≤ uOv.CheckTime ∧ 0 ≤ uOv.RandomizeTime ∧
      uOv.CheckTime ≤ int64Max ∧
      SetUpdateTime uOv 0 0 = some (-9223371273709551616) ∧
      ¬ (0 + uOv.CheckTime * hourNs ≤ -9223371273709551616))
    ∧ (0 ≤ uMax.RandomizeTime ∧ uMax.RandomizeTime ≤ int64Max ∧
      SetUpdateTime uMax 0 0 = none) := by
  refine ⟨⟨by decide, by decide, by decide, by decide, by decide⟩,
    by decide, by decide, by decide⟩

/-- C6 amended: for non-negative CheckTime and RandomizeTime whose int64
arithmetic does not wrap, that is RandomizeTime+1 and the full hour
window (CheckTime + RandomizeTime) hours stay at most MaxInt64, every
instant that SetUpdateTime can write at time t lies in the closed
interval from t + CheckTime hours to t + (CheckTime + RandomizeTime)
hours, and both endpoints are attained by concrete PRNG draws. -/
theorem setUpdateTime_range (u : Updater) (t : Int)
    (hc : 0 ≤ u.CheckTime) (hr : 0 ≤ u.RandomizeTime)
    (hr1 : u.RandomizeTime + 1 ≤ int64Max)
    (hcr : (u.CheckTime + u.RandomizeTime) * hourNs ≤ int64Max) :
    (∀ draw v, SetUpdateTime u t draw = some v →
      t + u.CheckTime * hourNs ≤ v ∧
        v ≤ t + (u.CheckTime + u.RandomizeTime) * hourNs)
    ∧ SetUpdateTime u t 0 = some (t + u.CheckTime * hourNs)
    ∧ SetUpdateTime u t u.RandomizeTime.toNat =
        some (t + (u.CheckTime + u.RandomizeTime) * hourNs) := by
  have hh : (0 : Int) < hourNs := by norm_num [hourNs]
  have hb : wrap64 (u.RandomizeTime + 1) = u.RandomizeTime + 1 :=
    wrap64_eq_self _ (by simp only [int64Min]; omega) hr1
  have hpos : ¬ (u.RandomizeTime + 1 ≤ 0) := by omega
  have hsplit : (u.CheckTime + u.RandomizeTime) * hourNs =
      u.CheckTime * hourNs + u.RandomizeTime * hourNs := by ring
  have hch0 : 0 ≤ u.CheckTime * hourNs := mul_nonneg hc hh.le
  have hrh0 : 0 ≤ u.RandomizeTime * hourNs := mul_nonneg hr hh.le
  have hwc : wrap64 (u.CheckTime * hourNs) = u.CheckTime * hourNs :=
    wrap64_eq_self _ (by simp only [int64Min]; omega)
      (by simp only [int64Max] at *; omega)
  have hwk : ∀ k : Int, 0 ≤ k → k ≤ u.RandomizeTime →
      wrap64 (k * hourNs) = k * hourNs := by
    intro k hk0 hkr
    have hkh : k * hourNs ≤ u.RandomizeTime * hourNs :=
      mul_le_mul_of_nonneg_right hkr hh.le
    have hkh0 : 0 ≤ k * hourNs := mul_nonneg hk0 hh.le
    exact wrap64_eq_self _ (by simp only [int64Min]; omega)
      (by simp only [int64Max] at *; omega)
  have hws : ∀ k : Int, 0 ≤ k → k ≤ u.RandomizeTime →
      wrap64 (u.CheckTime * hourNs + k * hourNs) =
        u.CheckTime * hourNs + k * hourNs := by
    intro k hk0 hkr
    have hkh : k * hourNs ≤ u.RandomizeTime * hourNs :=
      mul_le_mul_of_nonneg_right hkr hh.le
    have hkh0 : 0 ≤ k * hourNs := mul_nonneg hk0 hh.le
    exact wrap64_eq_self _ (by simp only [int64Min]; omega)
      (by simp only [int64Max] at *; omega)
  refine ⟨?_, ?_, ?_⟩
  · intro draw v hv
    unfold SetUpdateTime Intn at hv
    rw [hb, if_neg hpos] at hv
    simp only [Option.map_some'] at hv
    have hveq := Option.some.inj hv
    subst hveq
    have hk0 : 0 ≤ (draw : Int) % (u.RandomizeTime + 1) :=
      Int.emod_nonneg _ (by omega)
    have hkr : (draw : Int) % (u.RandomizeTime + 1) ≤ u.RandomizeTime := by
      have := Int.emod_lt_of_pos (draw : Int)
        (show (0 : Int) < u.RandomizeTime + 1 by omega)
      omega
    rw [hwc, hwk _ hk0 hkr, hws _ hk0 hkr]
    constructor
    · have h1 : 0 ≤ (draw : Int) % (u.RandomizeTime + 1) * hourNs :=
        mul_nonneg hk0 hh.le
      linarith
    · have h2 : (draw : Int) % (u.RandomizeTime + 1) * hourNs ≤
          u.RandomizeTime * hourNs :=
        mul_le_mul_of_nonneg_right hkr hh.le
      linarith
  · unfold SetUpdateTime Intn
    rw [hb, if_neg hpos]
    simp only [Option.map_some', Int.natCast_zero, Int.zero_emod, zero_mul]
    rw [hwc, show wrap64 0 = 0 from by decide, add_zero, hwc]
  · unfold SetUpdateTime Intn
    rw [hb, if_neg hpos]
    have hcast : ((u.RandomizeTime.toNat : Int)) = u.RandomizeTime :=
      Int.toNat_of_nonneg hr
    rw [hcast, Int.emod_eq_of_lt hr (by omega)]
    simp only [Option.map_some']
    rw [hwc, hwk _ hr le_rfl, hws _ hr le_rfl]
    congr 1
    ring

/-- Witness for C6 at CheckTime 100, RandomizeTime 100, t 0: the draw 0
lands on an instant inside the scheduled window. -/
theorem setUpdateTime_range_witness :
    (0 : Int) + u6.CheckTime * hourNs ≤ 360000000000000 ∧
      (360000000000000 : Int) ≤ 0 + (u6.CheckTime + u6.RandomizeTime) * hourNs :=
  (setUpdateTime_range u6 0 (by decide) (by decide) (by decide)
    (by decide)).1 0 360000000000000 (by decide)

/-- C8: readTime returns the zero instant when the cooldown file does not
exist, and the current time plus 1000 hours when the file is unreadable
for any other reason or its content does not parse; its return type has no
error component, so no error is surfaced in any of the three cases. -/
theorem readTime_spec (parse : String → Option Int) (now : Int) :
    readTime parse now .notExist = zeroInstant
    ∧ readTime parse now .readError = now + 1000 * hourNs
    ∧ (∀ s, parse s = none →
        readTime parse now (.content s) = now + 1000 * hourNs) := by
  refine ⟨rfl, rfl, ?_⟩
  intro s hs
  simp [readTime, hs]

/-- Witness for C8: a parser that rejects the content yields the 1000-hour
back-off at now 5. -/
theorem readTime_spec_witness :
    readTime parse0 5 (.content "x") = 5 + 1000 * hourNs :=
  (readTime_spec parse0 5).2.2 "x" rfl

/-- C9: for RandomizeTime at most -1 (over the int64 domain of the Go
field), SetUpdateTime panics for every PRNG draw, because rand.Intn is
called with a non-positive argument. -/
theorem setUpdateTime_panics (u : Updater) (t : Int) (draw : Nat)
    (h : u.RandomizeTime ≤ -1) (hdom : int64Min ≤ u.RandomizeTime) :
    SetUpdateTime u t draw = none := by
  unfold SetUpdateTime Intn
  rw [wrap64_eq_self (u.RandomizeTime + 1)
    (by simp only [int64Min] at *; omega) (by simp only [int64Max]; omega)]
  rw [if_pos (by omega)]
  rfl

/-- Witness for C9 at RandomizeTime -1. -/
theorem setUpdateTime_panics_witness : SetUpdateTime u9 0 0 = none :=
  setUpdateTime_panics u9 0 0 (by decide) (by decide)

/-- C7: once the manifest body has been fetched and JSON-decoded, fetchInfo
rejects it, with the bad-hash-length error, exactly when the decoded
Version is non-empty and the decoded Sha256 is not 32 bytes long;
otherwise, in particular whenever Version is empty, the manifest is
accepted unchanged. -/
theorem fetchInfo_validation (P : Prims) (u : Updater) (plat : String)
    (f : Fetcher) (tr : Trace) (body : Bytes) (info : Info)
    (hf : f (fetchInfoURL u plat) = .ok body)
    (hd : P.jsonDecodeInfo body = some info) :
    ((fetchInfoT P u plat f tr).1 =
        .error (.badHashLength info.Sha256.length) ↔
      (info.Version ≠ "" ∧ info.Sha256.length ≠ 32))
    ∧ (¬ (info.Version ≠ "" ∧ info.Sha256.length ≠ 32) →
        (fetchInfoT P u plat f tr).1 = .ok info) := by
  unfold fetchInfoT
  rw [hf]
  dsimp only
  rw [hd]
  dsimp only
  constructor
  · split
    · simp_all [sha256Size]
    · simp_all [sha256Size]
  · intro hn
    rw [if_neg (by simpa [sha256Size] using hn)]

/-- Witness for C7: a non-empty version with a 1-byte hash is rejected and
an empty version with a 1-byte hash is accepted. -/
theorem fetchInfo_validation_witness :
    (fetchInfoT prims7 baseUpdater "p" fetcher7 []).1 =
      .error (.badHashLength 1)
    ∧ (fetchInfoT prims8 baseUpdater "p" fetcher7 []).1 = .ok info8 :=
  ⟨(fetchInfo_validation prims7 baseUpdater "p" fetcher7 [] [] info7
      rfl rfl).1.mpr (by decide),
   (fetchInfo_validation prims8 baseUpdater "p" fetcher7 [] [] info8
      rfl rfl).2 (by decide)⟩

/-- C10: BackgroundRun discards the boolean result of SetUpdateTime: its
outcome is identical whether the cooldown write succeeded or failed, and
whenever an update is wanted and permitted it proceeds to Update
regardless of that boolean. -/
theorem backgroundRun_ignores_write (P : Prims) (u : Updater) (plat : String)
    (f : Fetcher) (mkdirErr : Option String) (parse : String → Option Int)
    (now : Int) (r : ReadResult) (canUpdateErr : Option String) (draw : Nat)
    (openOld : Except String Bytes) :
    (BackgroundRun P u plat f mkdirErr parse now r canUpdateErr draw true openOld =
      BackgroundRun P u plat f mkdirErr parse now r canUpdateErr draw false openOld)
    ∧ (∀ b, mkdirErr = none → WantUpdate u parse now r = true →
        canUpdateErr = none → 0 ≤ u.RandomizeTime →
        u.RandomizeTime + 1 ≤ int64Max →
        BackgroundRun P u plat f mkdirErr parse now r canUpdateErr draw b openOld =
          some (Update P u plat f openOld)) := by
  constructor
  · unfold BackgroundRun SetUpdateTimeB
    cases mkdirErr with
    | some e => rfl
    | none =>
      by_cases hw : WantUpdate u parse now r = true
      · rw [if_pos hw, if_pos hw]
        cases canUpdateErr with
        | some e => rfl
        | none =>
          cases h : SetUpdateTime u now draw with
          | none => rfl
          | some v => rfl
      · rw [if_neg hw, if_neg hw]
  · intro b hm hw hc hr hrm
    subst hm; subst hc
    unfold BackgroundRun SetUpdateTimeB
    rw [if_pos hw]
    have hsome : ∃ v, SetUpdateTime u now draw = some v := by
      unfold SetUpdateTime Intn
      rw [wrap64_eq_self _ (by simp only [int64Min]; omega) hrm]
      rw [if_neg (by omega)]
      exact ⟨_, rfl⟩
    obtain ⟨v, hv⟩ := hsome
    rw [hv]
    rfl

/-- Witness for C10: a concrete wanted, permitted update runs the Update
stage both when the cooldown write succeeds and when it fails. -/
theorem backgroundRun_ignores_write_witness :
    (BackgroundRun prims0 u6 "p" fetcher7 none parse0 5 .notExist none 0 true
        (.error "x") =
      BackgroundRun prims0 u6 "p" fetcher7 none parse0 5 .notExist none 0 false
        (.error "x"))
    ∧ BackgroundRun prims0 u6 "p" fetcher7 none parse0 5 .notExist none 0 false
        (.error "x") =
      some (Update prims0 u6 "p" fetcher7 (.error "x")) :=
  ⟨(backgroundRun_ignores_write prims0 u6 "p" fetcher7 none parse0 5 .notExist
      none 0 (.error "x")).1,
   (backgroundRun_ignores_write prims0 u6 "p" fetcher7 none parse0 5 .notExist
      none 0 (.error "x")).2 false rfl (by decide) rfl (by decide) (by decide)⟩

theorem fetchAndApplyPatch_trace (P : Prims) (u : Updater) (plat : String)
    (f : Fetcher) (info : Info) (old : Bytes) (tr : Trace) :
    (fetchAndApplyPatch P u plat f info old tr).2 =
      tr ++ [diffFetchURL u plat info] := by
  unfold fetchAndApplyPatch
  cases f (diffFetchURL u plat info) with
  | error e => rfl
  | ok body =>
    dsimp only
    cases P.patch old body with
    | error e => rfl
    | ok bin => rfl

theorem fetchAndVerifyPatch_trace (P : Prims) (u : Updater) (plat : String)
    (f : Fetcher) (info : Info) (old : Bytes) (tr : Trace) :
    (fetchAndVerifyPatch P u plat f info old tr).2 =
      tr ++ [diffFetchURL u plat info] := by
  have hap := fetchAndApplyPatch_trace P u plat f info old tr
  unfold fetchAndVerifyPatch
  rcases h : fetchAndApplyPatch P u plat f info old tr with ⟨res, tr1⟩
  rw [h] at hap
  cases res with
  | error e => exact hap
  | ok bin =>
    dsimp only
    split
    · exact hap
    · split
      · exact hap
      · exact hap

theorem fetchBin_trace (P : Prims) (u : Updater) (plat : String)
    (f : Fetcher) (info : Info) (tr : Trace) :
    (fetchBin P u plat f info tr).2 = tr ++ [binFetchURL u plat info] := by
  unfold fetchBin
  cases f (binFetchURL u plat info) with
  | error e => rfl
  | ok body =>
    dsimp only
    cases P.gunzip body with
    | error e => rfl
    | ok bin => rfl

theorem fetchAndVerifyFullBin_trace (P : Prims) (u : Updater) (plat : String)
    (f : Fetcher) (info : Info) (tr : Trace) :
    (fetchAndVerifyFullBin P u plat f info tr).2 =
      tr ++ [binFetchURL u plat info] := by
  have hb := fetchBin_trace P u plat f info tr
  unfold fetchAndVerifyFullBin
  rcases h : fetchBin P u plat f info tr with ⟨res, tr1⟩
  rw [h] at hb
  cases res with
  | error e => exact hb
  | ok bin =>
    dsimp only
    split
    · exact hb
    · split
      · exact hb
      · exact hb

theorem updateInstall_trace (P : Prims) (info : Info) (bin : Bytes)
    (tr : Trace) : (updateInstall P info bin tr).2 = tr := by
  unfold updateInstall
  rcases P.fromStream bin with ⟨e1, e2⟩
  cases e1 <;> cases e2 <;> rfl

theorem updateFull_trace (P : Prims) (u : Updater) (plat : String)
    (f : Fetcher) (info : Info) (tr : Trace) :
    (updateFull P u plat f info tr).2 = tr ++ [binFetchURL u plat info] := by
  have hb := fetchAndVerifyFullBin_trace P u plat f info tr
  unfold updateFull
  rcases h : fetchAndVerifyFullBin P u plat f info tr with ⟨res, tr1⟩
  rw [h] at hb
  cases res with
  | error e => exact hb
  | ok bin =>
    dsimp only
    rw [updateInstall_trace]
    exact hb

/-- C1 counterexample: a concrete run in which the delta candidate fails
signature verification, yet Update does not return the signature-mismatch
sentinel, and the full-binary URL is fetched: the delta stage falls back
to the full download on a signature mismatch. -/
theorem update_deltaSigMismatch_cex :
    (fetchAndVerifyPatch prims1 u1 "p" fetcher1 info1 []
        [fetchInfoURL u1 "p"]).1 = .error .signatureMismatch
    ∧ (Update prims1 u1 "p" fetcher1 (.ok [])).1 = .ok info1
    ∧ binFetchURL u1 "p" info1 ∈ (Update prims1 u1 "p" fetcher1 (.ok [])).2 :=
  ⟨by decide, by decide, by decide⟩

/-- C1 amended: when the delta candidate fails signature verification,
Update falls through to the full-binary stage exactly as on a hash
mismatch; ErrSignatureMismatch is fatal only when produced by the
full-binary stage. -/
theorem update_deltaSigMismatch_falls_back (P : Prims) (u : Updater)
    (plat : String) (f : Fetcher) (old : Bytes) (info : Info) (tr0 tr1 : Trace)
    (hinfo : fetchInfoT P u plat f [] = (.ok info, tr0))
    (h1 : ¬ info.Version = "")
    (h2 : ¬ info.Version = u.CurrentVersion)
    (h3 : ¬ (u.PublicKey.isSome = true ∧ info.Signature = []))
    (h4 : fetchAndVerifyPatch P u plat f info old tr0 =
      (.error .signatureMismatch, tr1)) :
    Update P u plat f (.ok old) = updateFull P u plat f info tr1 := by
  unfold Update
  rw [hinfo]
  dsimp only
  rw [if_neg h1, if_neg h2, if_neg h3, h4]

/-- Witness for the amended C1 at the concrete signature-mismatch run. -/
theorem update_deltaSigMismatch_falls_back_witness :
    Update prims1 u1 "p" fetcher1 (.ok []) =
      updateFull prims1 u1 "p" fetcher1 info1
        [fetchInfoURL u1 "p", diffFetchURL u1 "p" info1] :=
  update_deltaSigMismatch_falls_back prims1 u1 "p" fetcher1 [] info1
    [fetchInfoURL u1 "p"] [fetchInfoURL u1 "p", diffFetchURL u1 "p" info1]
    (by decide) (by decide) (by decide) (by decide) (by decide)

/-- C2 counterexample: with DiffURL empty a concrete Update run still
performs a delta fetch, against the URL formed from the empty base, so the
fetches are not only the manifest and the full binary. -/
theorem update_emptyDiffURL_cex :
    u2.DiffURL = ""
    ∧ (Update prims2 u2 "p" fetcher2 (.ok [])).2 =
        [fetchInfoURL u2 "p", diffFetchURL u2 "p" info2,
          binFetchURL u2 "p" info2]
    ∧ diffFetchURL u2 "p" info2 ≠ fetchInfoURL u2 "p"
    ∧ diffFetchURL u2 "p" info2 ≠ binFetchURL u2 "p" info2 :=
  ⟨rfl, by decide, by decide, by decide⟩

/-- C2 amended: with DiffURL empty the delta stage is still attempted:
whenever Update reaches the delta stage it fetches the delta URL, which
then lacks any base prefix; only the error log line is suppressed when
DiffURL is empty. -/
theorem update_emptyDiffURL_still_fetches (P : Prims) (u : Updater)
    (plat : String) (f : Fetcher) (old : Bytes) (info : Info) (tr0 : Trace)
    (hdiff : u.DiffURL = "")
    (hinfo : fetchInfoT P u plat f [] = (.ok info, tr0))
    (h1 : ¬ info.Version = "")
    (h2 : ¬ info.Version = u.CurrentVersion)
    (h3 : ¬ (u.PublicKey.isSome = true ∧ info.Signature = [])) :
    diffFetchURL u plat info ∈ (Update P u plat f (.ok old)).2
    ∧ diffFetchURL u plat info =
        queryEscapeS u.CmdName ++ strBytes "/" ++
          queryEscapeS u.CurrentVersion ++ strBytes "/" ++
          queryEscapeS info.Version ++ strBytes "/" ++ queryEscapeS plat := by
  constructor
  · unfold Update
    rw [hinfo]
    dsimp only
    rw [if_neg h1, if_neg h2, if_neg h3]
    have hp := fetchAndVerifyPatch_trace P u plat f info old tr0
    rcases h : fetchAndVerifyPatch P u plat f info old tr0 with ⟨res, tr1⟩
    rw [h] at hp
    dsimp only at hp
    cases res with
    | ok bin =>
      dsimp only
      rw [updateInstall_trace, hp]
      simp
    | error e =>
      dsimp only
      rw [updateFull_trace, hp]
      simp
  · have h0 : strBytes u.DiffURL = [] := by rw [hdiff]; rfl
    rw [diffFetchURL, h0, List.nil_append]

/-- Witness for the amended C2 at the concrete empty-DiffURL run. -/
theorem update_emptyDiffURL_still_fetches_witness :
    diffFetchURL u2 "p" info2 ∈ (Update prims2 u2 "p" fetcher2 (.ok [])).2 :=
  (update_emptyDiffURL_still_fetches prims2 u2 "p" fetcher2 [] info2
    [fetchInfoURL u2 "p"] rfl (by decide) (by decide) (by decide)
    (by decide)).1

theorem readFile_writeFile (fs : FS) (p q : FPath) (c : Bytes) :
    (fs.writeFile p c).readFile q = if p = q then some c else fs.readFile q :=
  rfl

theorem readFile_mkdir (fs : FS) (d q : FPath) :
    (fs.mkdir d).readFile q = fs.readFile q :=
  rfl

theorem mem_dirs_mkdir (fs : FS) (d q : FPath) (h : q ∈ fs.dirs) :
    q ∈ (fs.mkdir d).dirs := by
  unfold FS.mkdir
  dsimp only
  split
  · exact h
  · exact List.mem_cons_of_mem _ h

theorem mem_subdirNames (fs : FS) (d : FPath) (n : String)
    (h : d ++ [n] ∈ fs.dirs) : n ∈ subdirNames fs d := by
  unfold subdirNames
  refine List.mem_filterMap.mpr ⟨d ++ [n], h, ?_⟩
  rw [if_pos (by simp)]
  rw [List.getLastD_concat]

theorem processDir_readFile (P : Prims) (g : FPath) (v p n : String)
    (fs fs' : FS) (q : FPath)
    (h : processDir P g v p n fs = some fs')
    (hq : ¬ q = g ++ [n, v, p]) :
    fs'.readFile q = fs.readFile q := by
  simp only [processDir] at h
  split at h
  · cases h; rfl
  · split at h
    · cases h; rfl
    · split at h
      · exact absurd h (by simp)
      · split at h
        · cases h
          rw [readFile_writeFile, if_neg fun hh => hq hh.symm]
          rfl
        · exact absurd h (by simp)

theorem processDir_writes_delta (P : Prims) (g : FPath) (v p D : String)
    (fs fs' : FS) (oldgz newgz : Bytes)
    (hD : ¬ D = v)
    (hold : fs.readFile (g ++ [D, p ++ ".gz"]) = some oldgz)
    (hnew : fs.readFile (g ++ [v, p ++ ".gz"]) = some newgz)
    (h : processDir P g v p D fs = some fs') :
    ∃ o no, P.gunzip oldgz = Except.ok o ∧ P.gunzip newgz = Except.ok no ∧
      fs'.readFile (g ++ [D, v, p]) = some (P.diff o no) := by
  simp only [processDir] at h
  rw [if_neg hD] at h
  rw [readFile_mkdir, hold] at h
  rw [readFile_mkdir, hnew] at h
  dsimp only at h
  rcases hgo : P.gunzip oldgz with eo | o
  · rw [hgo] at h
    exact absurd h (by simp)
  · rw [hgo] at h
    rcases hgn : P.gunzip newgz with en | no
    · rw [hgn] at h
      exact absurd h (by simp)
    · rw [hgn] at h
      dsimp only at h
      cases h
      exact ⟨o, no, rfl, rfl, by rw [readFile_writeFile, if_pos rfl]⟩

theorem foldProcess_readFile (P : Prims) (g : FPath) (v p : String) (q : FPath)
    (hq : q.length ≠ g.length + 3) :
    ∀ (names : List String) (fs fs' : FS),
      List.foldlM (fun s n => processDir P g v p n s) fs names = some fs' →
      fs'.readFile q = fs.readFile q := by
  intro names
  induction names with
  | nil =>
    intro fs fs' hfold
    simp only [List.foldlM_nil] at hfold
    cases hfold
    rfl
  | cons n ns ih =>
    intro fs fs' hfold
    simp only [List.foldlM_cons] at hfold
    rcases hpd : processDir P g v p n fs with _ | fs1
    · rw [hpd] at hfold
      exact Option.noConfusion hfold
    · rw [hpd] at hfold
      have h1 := processDir_readFile P g v p n fs fs1 q hpd
        (by intro hh; apply hq; rw [hh]; simp)
      rw [ih fs1 fs' hfold, h1]

theorem foldProcess_delta (P : Prims) (g : FPath) (v p D : String)
    (oldgz src : Bytes) (hD : ¬ D = v)
    (hgzlaw : P.gunzip (P.gzip src) = Except.ok src) :
    ∀ (names : List String) (fs fs' : FS),
      List.foldlM (fun s n => processDir P g v p n s) fs names = some fs' →
      fs.readFile (g ++ [D, p ++ ".gz"]) = some oldgz →
      fs.readFile (g ++ [v, p ++ ".gz"]) = some (P.gzip src) →
      (D ∈ names ∨ ∃ o, P.gunzip oldgz = Except.ok o ∧
        fs.readFile (g ++ [D, v, p]) = some (P.diff o src)) →
      ∃ o, P.gunzip oldgz = Except.ok o ∧
        fs'.readFile (g ++ [D, v, p]) = some (P.diff o src) := by
  intro names
  induction names with
  | nil =>
    intro fs fs' hfold hold hnew hdisj
    simp only [List.foldlM_nil] at hfold
    cases hfold
    rcases hdisj with hmem | hex
    · exact absurd hmem (List.not_mem_nil D)
    · exact hex
  | cons n ns ih =>
    intro fs fs' hfold hold hnew hdisj
    simp only [List.foldlM_cons] at hfold
    rcases hpd : processDir P g v p n fs with _ | fs1
    · rw [hpd] at hfold
      exact Option.noConfusion hfold
    · rw [hpd] at hfold
      have hold1 : fs1.readFile (g ++ [D, p ++ ".gz"]) = some oldgz := by
        rw [processDir_readFile P g v p n fs fs1 _ hpd (by simp), hold]
      have hnew1 : fs1.readFile (g ++ [v, p ++ ".gz"]) = some (P.gzip src) := by
        rw [processDir_readFile P g v p n fs fs1 _ hpd (by simp [hD]), hnew]
      by_cases hn : n = D
      · subst hn
        obtain ⟨o, no, ho, hno, hd1⟩ :=
          processDir_writes_delta P g v p n fs fs1 oldgz (P.gzip src) hD hold hnew hpd
        rw [hgzlaw] at hno
        have hnos : src = no := Except.ok.inj hno
        refine ih fs1 fs' hfold hold1 hnew1 (Or.inr ⟨o, ho, ?_⟩)
        rw [hd1, hnos]
      · rcases hdisj with hmem | ⟨o, ho, hdel⟩
        · rcases List.mem_cons.mp hmem with h1 | h2
          · exact absurd h1.symm hn
          · exact ih fs1 fs' hfold hold1 hnew1 (Or.inl h2)
        · refine ih fs1 fs' hfold hold1 hnew1 (Or.inr ⟨o, ho, ?_⟩)
          have hne : ¬ (g ++ [D, v, p] = g ++ [n, v, p]) := by
            intro hh
            have hdp := congrArg (List.drop g.length) hh
            rw [List.drop_left, List.drop_left] at hdp
            simp at hdp
            exact hn hdp.symm
          rw [processDir_readFile P g v p n fs fs1 _ hpd hne, hdel]

theorem ne_append_cons (g : FPath) (a b : String) (s t : List String)
    (h : ¬ a = b) : ¬ (g ++ (a :: s) = g ++ (b :: t)) := by
  intro hh
  apply h
  have hd := congrArg (List.drop g.length) hh
  rw [List.drop_left, List.drop_left] at hd
  injection hd with h1 h2

theorem ne_append_length (g : FPath) (s t : List String)
    (h : ¬ s.length = t.length) : ¬ (g ++ s = g ++ t) := by
  intro hh
  apply h
  have hd := congrArg (List.drop g.length) hh
  rw [List.drop_left, List.drop_left] at hd
  rw [hd]

theorem createUpdate_core (P : Prims) (vv : String) (src : Bytes)
    (platform : String) (genDir : FPath) (fs fs' : FS) (jsonBytes : Bytes)
    (hgzlaw : P.gunzip (P.gzip src) = Except.ok src)
    (hpatchlaw : ∀ o n, P.patch o (P.diff o n) = Except.ok n)
    (hrun : List.foldlM (fun s n => processDir P genDir vv platform n s)
        (builderStage P vv src platform genDir jsonBytes fs)
        (subdirNames (builderStage P vv src platform genDir jsonBytes fs)
          genDir) = some fs') :
    (∃ j, fs'.readFile (genDir ++ [platform ++ ".json"]) = some j)
    ∧ fs'.readFile (genDir ++ [vv, platform ++ ".gz"]) = some (P.gzip src)
    ∧ (∀ D oldgz, genDir ++ [D] ∈ fs.dirs → ¬ D = vv →
        fs.readFile (genDir ++ [D, platform ++ ".gz"]) = some oldgz →
        ∃ o, P.gunzip oldgz = Except.ok o ∧
          fs'.readFile (genDir ++ [D, vv, platform]) = some (P.diff o src) ∧
          P.patch o (P.diff o src) = Except.ok src) := by
  refine ⟨?_, ?_, ?_⟩
  · have hpres := foldProcess_readFile P genDir vv platform
      (genDir ++ [platform ++ ".json"])
      (by simp only [List.length_append, List.length_cons, List.length_nil]; omega)
      _ _ _ hrun
    rw [hpres]
    unfold builderStage
    rw [readFile_writeFile,
      if_neg (ne_append_length genDir _ _ (by simp)),
      readFile_mkdir, readFile_writeFile, if_pos rfl]
    exact ⟨jsonBytes, rfl⟩
  · have hpres := foldProcess_readFile P genDir vv platform
      (genDir ++ [vv, platform ++ ".gz"])
      (by simp only [List.length_append, List.length_cons, List.length_nil]; omega)
      _ _ _ hrun
    rw [hpres]
    unfold builderStage
    rw [readFile_writeFile, if_pos rfl]
  · intro D oldgz hDdir hDv holdfs
    have hmem : D ∈ subdirNames
        (builderStage P vv src platform genDir jsonBytes fs) genDir :=
      mem_subdirNames _ _ _
        (mem_dirs_mkdir (fs.writeFile (genDir ++ [platform ++ ".json"])
          jsonBytes) (genDir ++ [vv]) (genDir ++ [D]) hDdir)
    have hold3 : (builderStage P vv src platform genDir jsonBytes
        fs).readFile (genDir ++ [D, platform ++ ".gz"]) = some oldgz := by
      unfold builderStage
      rw [readFile_writeFile,
        if_neg (ne_append_cons genDir vv D _ _ (fun hh => hDv hh.symm)),
        readFile_mkdir, readFile_writeFile,
        if_neg (ne_append_length genDir _ _ (by simp)), holdfs]
    have hnew3 : (builderStage P vv src platform genDir jsonBytes
        fs).readFile (genDir ++ [vv, platform ++ ".gz"]) =
        some (P.gzip src) := by
      unfold builderStage
      rw [readFile_writeFile, if_pos rfl]
    obtain ⟨o, ho, hdel⟩ := foldProcess_delta P genDir vv platform D oldgz src
      hDv hgzlaw _ _ _ hrun hold3 hnew3 (Or.inl hmem)
    exact ⟨o, ho, hdel, hpatchlaw o src⟩

/-- C3: after CreateUpdate completes successfully, the manifest JSON file
and the gzipped full binary exist in the output tree, and for every
pre-existing directory D other than the new version that held a gz
artifact for the platform, the delta file exists and patching the
decompressed old artifact with it restores exactly the source bytes. -/
theorem createUpdate_post (P : Prims) (version : Info) (src : Bytes)
    (platform : String) (genDir : FPath) (pk : Option Nat) (fs fs' : FS)
    (hgzlaw : P.gunzip (P.gzip src) = Except.ok src)
    (hpatchlaw : ∀ o n, P.patch o (P.diff o n) = Except.ok n)
    (hrun : CreateUpdate P version (some src) platform genDir pk fs = some fs') :
    (∃ j, fs'.readFile (genDir ++ [platform ++ ".json"]) = some j)
    ∧ fs'.readFile (genDir ++ [version.Version, platform ++ ".gz"]) =
        some (P.gzip src)
    ∧ (∀ D oldgz, genDir ++ [D] ∈ fs.dirs → ¬ D = version.Version →
        fs.readFile (genDir ++ [D, platform ++ ".gz"]) = some oldgz →
        ∃ o, P.gunzip oldgz = Except.ok o ∧
          fs'.readFile (genDir ++ [D, version.Version, platform]) =
            some (P.diff o src) ∧
          P.patch o (P.diff o src) = Except.ok src) := by
  simp only [CreateUpdate, Option.getD_some] at hrun
  rcases hc : signedManifest P version.Version (P.sha256 src) pk with _ | c
  · rw [hc] at hrun
    exact Option.noConfusion hrun
  · rw [hc] at hrun
    exact createUpdate_core P version.Version src platform genDir fs fs' _
      hgzlaw hpatchlaw hrun

/-- Witness for C3 at the concrete builder run on the tree fs0 holding a
prior version 1.0: the delta file appears and restores the source. -/
theorem createUpdate_post_witness :
    fs3out.readFile ["out", "1.0", "1.2", "linux"] = some [1, 2, 3]
    ∧ fs3out.readFile ["out", "1.2", "linux.gz"] = some [1, 2, 3]
    ∧ prims0.patch [7, 7] [1, 2, 3] = Except.ok [1, 2, 3] := by
  have hrun : CreateUpdate prims0 infoV (some [1, 2, 3]) "linux" ["out"]
      none fs0 = some fs3out := by decide
  have hmain := createUpdate_post prims0 infoV [1, 2, 3] "linux" ["out"]
    none fs0 fs3out rfl (fun o n => rfl) hrun
  obtain ⟨o, ho, hdel, hpatch⟩ :=
    hmain.2.2 "1.0" [7, 7] (by decide) (by decide) (by decide)
  have hoo : (Except.ok [7, 7] : Except String Bytes) = Except.ok o := ho
  have ho7 : ([7, 7] : Bytes) = o := Except.ok.inj hoo
  refine ⟨?_, hmain.2.1, ?_⟩
  · rw [← ho7] at hdel
    exact hdel
  · rw [← ho7] at hpatch
    exact hpatch

end SelfUpdate
